import Mathlib

/-!
Verification development for the `bls_perf` repository.

The repository has two halves:

* `src/calc.rs` — an analytical cost model: pure arithmetic functions over
  `u32`/`usize` built on `checked_add`/`checked_sub`/`checked_mul`/`try_from`
  followed by `unwrap` (a panic on overflow).  We embed these as
  `Option Nat`-valued functions: `some v` is the value the Rust function
  returns, `none` is the fail-fast panic of an `unwrap` on a checked
  operation.  Inputs of type `u32`/`usize` become `Nat`; the `u32` range
  bound `2^32` appears explicitly in the guards, exactly where the checked
  operations test it.

* `src/bls12381/signature_validator.rs` — verification routines written
  against the external `blst` elliptic-curve library.  The spec treats the
  curve arithmetic as an external collaborator, so the embedding is
  parameterised by an abstract model (`BlstModel`) providing the library's
  primitives: byte decoding of points, the per-pair pairing-accumulation
  step, signature subgroup validation, and the final pairing-equality check
  (`Pairing::finalverify`).  The repository functions are then translated
  control-flow-faithfully over that interface.  The `perf!` measurement
  macro wraps an expression and returns its value unchanged (the
  measurement-method switch is external to the core per the spec), so it is
  transparent in the embedding.
-/

namespace BlsPerf

/-- The number of values of Rust's `u32` type: `2^32`.  A checked `u32`
operation succeeds exactly when its mathematical result is below this. -/
def U32 : Nat := 4294967296

namespace Calc

/-- Embeds `fn cast(a: usize) -> u32 { u32::try_from(a).unwrap() }` from
`src/calc.rs`: succeeds iff the value fits in `u32`. -/
def cast (a : Nat) : Option Nat :=
  if a < U32 then some a else none

/-- Embeds `fn add(a: u32, b: u32) -> u32 { a.checked_add(b).unwrap() }`. -/
def add (a b : Nat) : Option Nat :=
  if a + b < U32 then some (a + b) else none

/-- Embeds `fn sub(a: u32, b: u32) -> u32 { a.checked_sub(b).unwrap() }`:
fails iff the subtrahend exceeds the minuend. -/
def sub (a b : Nat) : Option Nat :=
  if b ≤ a then some (a - b) else none

/-- Embeds `fn mul(a: u32, b: u32) -> u32 { a.checked_mul(b).unwrap() }`. -/
def mul (a b : Nat) : Option Nat :=
  if a * b < U32 then some (a * b) else none

/-- The `for s in sizes` accumulation loop of
`calc_aggregate_verify_instructions_no_threaded`:
`instructions_cnt = add(add(instructions_cnt, mul(35, cast(*s))), 2620296)`. -/
def aggregate_verify_loop : List Nat → Nat → Option Nat
  | [], acc => some acc
  | s :: rest, acc =>
    (cast s).bind fun c =>
    (mul 35 c).bind fun m =>
    (add acc m).bind fun a1 =>
    (add a1 2620296).bind fun a2 =>
    aggregate_verify_loop rest a2

/-- The `match sizes.len() % 8` table of
`calc_aggregate_verify_instructions_no_threaded`, as a function of the
remainder; the `_ => unreachable!()` arm is `none`. -/
def remTermOf : Nat → Option Nat
  | 0 => some 0
  | 1 => some 3051556
  | 2 => some 5020768
  | 3 => some 6990111
  | 4 => some 8959454
  | 5 => some 10928798
  | 6 => some 12898141
  | 7 => some 14867484
  | _ => none

/-- Embeds `calc_aggregate_verify_instructions_no_threaded` from
`src/calc.rs`: the size loop, then `mul(cast(sizes.len() / 8), 16850000)`,
then the `sizes.len() % 8` table, then the size-independent constant
`281125 + 583573 + 3027639 + 4280077`. -/
def calc_aggregate_verify_instructions_no_threaded (sizes : List Nat) : Option Nat :=
  (aggregate_verify_loop sizes 0).bind fun c =>
  (cast (sizes.length / 8)).bind fun multiplier =>
  (mul multiplier 16850000).bind fun m =>
  (add c m).bind fun c2 =>
  (remTermOf (sizes.length % 8)).bind fun r =>
  (add c2 r).bind fun c3 =>
  add c3 (281125 + 583573 + 3027639 + 4280077)

/-- Embeds `calc_aggregate_verify_instructions_threaded` from `src/calc.rs`:
`mul(no_threaded_instructions / 100, 121)`. -/
def calc_aggregate_verify_instructions_threaded (no_threaded_instructions : Nat) : Option Nat :=
  mul (no_threaded_instructions / 100) 121

/-- Embeds `calc_verify_instructions` from `src/calc.rs`:
`add(mul(cast(size), 36), 15650000)`. -/
def calc_verify_instructions (size : Nat) : Option Nat :=
  (cast size).bind fun c =>
  (mul c 36).bind fun m =>
  add m 15650000

/-- Embeds `calc_fast_aggregate_verify_instructions` from `src/calc.rs`:
`add(add(mul(cast(size), 36), mul(cnt, 626056)), 15200000)`. -/
def calc_fast_aggregate_verify_instructions (cnt size : Nat) : Option Nat :=
  (cast size).bind fun c =>
  (mul c 36).bind fun m1 =>
  (mul cnt 626056).bind fun m2 =>
  (add m1 m2).bind fun a =>
  add a 15200000

/-- Embeds `calc_signature_aggregate_instructions` from `src/calc.rs`:
`sub(mul(cnt, 879554), 500000)`. -/
def calc_signature_aggregate_instructions (cnt : Nat) : Option Nat :=
  (mul cnt 879554).bind fun m =>
  sub m 500000

end Calc

namespace Cli

/-- Embeds the private `fn cast` duplicated in `src/cli.rs`. -/
def cast (a : Nat) : Option Nat :=
  if a < U32 then some a else none

/-- Embeds the private `fn add` duplicated in `src/cli.rs`. -/
def add (a b : Nat) : Option Nat :=
  if a + b < U32 then some (a + b) else none

/-- Embeds the private `fn sub` duplicated in `src/cli.rs`. -/
def sub (a b : Nat) : Option Nat :=
  if b ≤ a then some (a - b) else none

/-- Embeds the private `fn mul` duplicated in `src/cli.rs`. -/
def mul (a b : Nat) : Option Nat :=
  if a * b < U32 then some (a * b) else none

/-- The `for s in sizes` loop of the private
`aggregate_verify_instructions_no_threaded` in `src/cli.rs`. -/
def aggregate_verify_loop : List Nat → Nat → Option Nat
  | [], acc => some acc
  | s :: rest, acc =>
    (cast s).bind fun c =>
    (mul 35 c).bind fun m =>
    (add acc m).bind fun a1 =>
    (add a1 2620296).bind fun a2 =>
    aggregate_verify_loop rest a2

/-- The `match sizes.len() % 8` table of the private
`aggregate_verify_instructions_no_threaded` in `src/cli.rs`. -/
def remTermOf : Nat → Option Nat
  | 0 => some 0
  | 1 => some 3051556
  | 2 => some 5020768
  | 3 => some 6990111
  | 4 => some 8959454
  | 5 => some 10928798
  | 6 => some 12898141
  | 7 => some 14867484
  | _ => none

/-- Embeds the private `aggregate_verify_instructions_no_threaded` from
`src/cli.rs` (lines 93-122). -/
def aggregate_verify_instructions_no_threaded (sizes : List Nat) : Option Nat :=
  (aggregate_verify_loop sizes 0).bind fun c =>
  (cast (sizes.length / 8)).bind fun multiplier =>
  (mul multiplier 16850000).bind fun m =>
  (add c m).bind fun c2 =>
  (remTermOf (sizes.length % 8)).bind fun r =>
  (add c2 r).bind fun c3 =>
  add c3 (281125 + 583573 + 3027639 + 4280077)

/-- Embeds the private `aggregate_verify_instructions_threaded` from
`src/cli.rs`. -/
def aggregate_verify_instructions_threaded (no_threaded_instructions : Nat) : Option Nat :=
  mul (no_threaded_instructions / 100) 121

/-- Embeds the private `verify_instructions` from `src/cli.rs`. -/
def verify_instructions (size : Nat) : Option Nat :=
  (cast size).bind fun c =>
  (mul c 36).bind fun m =>
  add m 15650000

/-- Embeds the private `fast_aggregate_verify_instructions` from
`src/cli.rs`. -/
def fast_aggregate_verify_instructions (cnt size : Nat) : Option Nat :=
  (cast size).bind fun c =>
  (mul c 36).bind fun m1 =>
  (mul cnt 626056).bind fun m2 =>
  (add m1 m2).bind fun a =>
  add a 15200000

/-- Embeds the private `signature_aggregate_instructions` from
`src/cli.rs`. -/
def signature_aggregate_instructions (cnt : Nat) : Option Nat :=
  (mul cnt 879554).bind fun m =>
  sub m 500000

end Cli

/-- The remainder lookup table as a total function of the remainder: the
value the table yields for remainder `r` (zero for remainder `0`, and
outside the reachable range `0..8` by convention `0`). -/
def remTableVal (r : Nat) : Nat := (Calc.remTermOf r).getD 0

/-- The closed-form cost the spec describes for
`aggregate_verify_cost_no_threads`: for each message a per-byte linear term
(35 per byte) plus a fixed per-pair cost (2620296); a batch bonus
(16850000) for every complete group of 8 pairs; a remainder-dependent term
from the lookup table at `count mod 8`; and a size-independent constant. -/
def aggregateVerifyCostSpec (sizes : List Nat) : Nat :=
  (sizes.map fun s => 35 * s + 2620296).sum
    + sizes.length / 8 * 16850000
    + remTableVal (sizes.length % 8)
    + (281125 + 583573 + 3027639 + 4280077)

/-- Abstract interface to the external `blst` elliptic-curve library, the
collaborator the verification routines in
`src/bls12381/signature_validator.rs` are written against.  `PK` and `Sig`
are the library's decoded `min_pk::PublicKey` and `min_pk::Signature`
values; byte strings are `List Nat`.

* `pkFromBytes` / `sigFromBytes` — `PublicKey::from_bytes` /
  `Signature::from_bytes` (`none` is a decode error);
* `pairingAggregateOk pk msg` — whether `Pairing::aggregate` on this
  (validated) key and message returns `BLST_SUCCESS`;
* `sigValidate` — whether `signature.validate(false)` succeeds (subgroup
  check of the signature point);
* `finalVerify pairs sig` — the final pairing-equality check: whether
  `pairing.finalverify(Some(gtsig))` holds after accumulating the pairings
  of the given decoded (key, message) pairs, where `gtsig` is the pairing
  of the generator with the aggregate signature point;
* `coreVerify` — the result of the single-signature check
  `sig.verify(true, message, DST, aug, pk, true) == BLST_SUCCESS`;
* `pkAdd` / `pkToBytes` — elliptic-curve point addition of public keys and
  re-encoding, used by public-key aggregation. -/
structure BlstModel where
  PK : Type
  Sig : Type
  pkFromBytes : List Nat → Option PK
  sigFromBytes : List Nat → Option Sig
  pairingAggregateOk : PK → List Nat → Bool
  sigValidate : Sig → Bool
  finalVerify : List (PK × List Nat) → Sig → Bool
  coreVerify : Sig → List Nat → PK → Bool
  pkAdd : PK → PK → PK
  pkToBytes : PK → List Nat

/-- Embeds `verify_bls12381_v1` from `src/bls12381/signature_validator.rs`:
decode the signature, then the public key, then run the single pairing
check; either decode failure falls through to `false`. -/
def verify_bls12381_v1 (M : BlstModel) (message : List Nat)
    (public_key : List Nat) (signature : List Nat) : Bool :=
  match M.sigFromBytes signature with
  | some sig =>
    match M.pkFromBytes public_key with
    | some pk => M.coreVerify sig message pk
    | none => false
  | none => false

/-- The `for (pk, msg) in pub_keys_and_msgs` loop of
`aggregate_verify_bls12381_v1_no_threads`: decode each public key and feed
it with its message to `Pairing::aggregate`; `none` is the loop's early
`return false` (decode failure or a non-`BLST_SUCCESS` aggregate), `some`
carries the decoded pairs the pairing accumulator has absorbed. -/
def pairing_aggregate_loop (M : BlstModel) :
    List (List Nat × List Nat) → Option (List (M.PK × List Nat))
  | [] => some []
  | (pkb, msg) :: rest =>
    match M.pkFromBytes pkb with
    | some pk =>
      if M.pairingAggregateOk pk msg then
        (pairing_aggregate_loop M rest).map fun l => (pk, msg) :: l
      else none
    | none => none

/-- Embeds `aggregate_verify_bls12381_v1_no_threads` from
`src/bls12381/signature_validator.rs`: run the aggregation loop (early
`false` on failure), commit the pairing, `return false` if
`signature.validate(false)` fails, compute `gtsig` and
`pairing.finalverify(Some(&gtsig))` — whose boolean result the source
discards (`let _ = perf!(..)`) — and then return `true`. -/
def aggregate_verify_bls12381_v1_no_threads (M : BlstModel)
    (pub_keys_and_msgs : List (List Nat × List Nat)) (signature : M.Sig) : Bool :=
  match pairing_aggregate_loop M pub_keys_and_msgs with
  | none => false
  | some decoded =>
    if M.sigValidate signature then
      let _fv := M.finalVerify decoded signature
      true
    else false

/-- Embeds `aggregate_verify_bls12381_v1` from
`src/bls12381/signature_validator.rs`: decode the signature bytes and
delegate to the no-threads routine; decode failure yields `false`. -/
def aggregate_verify_bls12381_v1 (M : BlstModel)
    (pub_keys_and_msgs : List (List Nat × List Nat)) (signature : List Nat) : Bool :=
  match M.sigFromBytes signature with
  | some sig => aggregate_verify_bls12381_v1_no_threads M pub_keys_and_msgs sig
  | none => false

/-- The key-decoding loop of `aggregate_verify_bls12381_v1_threaded`:
decode every public key into a vector (early `return false`, i.e. `none`,
on any decode failure), pairing each with its message slice. -/
def threaded_decode_loop (M : BlstModel) :
    List (List Nat × List Nat) → Option (List (M.PK × List Nat))
  | [] => some []
  | (pkb, msg) :: rest =>
    match M.pkFromBytes pkb with
    | some pk => (threaded_decode_loop M rest).map fun l => (pk, msg) :: l
    | none => none

/-- Modelled from the spec: the external library's own aggregate-verify
entry point (`blst::min_pk::Signature::aggregate_verify`), to which the
threaded path delegates.  Per the spec's core-algorithm description it
accumulates, for each pair, the pairing of the (validated) public key with
the hashed message, validates that the signature lies in the correct
subgroup, and reports validity as the equality of the two final pairing
results after final exponentiation. -/
def lib_aggregate_verify (M : BlstModel)
    (decoded : List (M.PK × List Nat)) (sig : M.Sig) : Bool :=
  (decoded.all fun p => M.pairingAggregateOk p.1 p.2)
    && M.sigValidate sig && M.finalVerify decoded sig

/-- Embeds `aggregate_verify_bls12381_v1_threaded` from
`src/bls12381/signature_validator.rs`: decode the signature bytes, decode
all public keys (any failure yields `false`), then return whether the
library's `aggregate_verify` routine reports `BLST_SUCCESS`. -/
def aggregate_verify_bls12381_v1_threaded (M : BlstModel)
    (pub_keys_and_msgs : List (List Nat × List Nat)) (signature : List Nat) : Bool :=
  match M.sigFromBytes signature with
  | some sig =>
    match threaded_decode_loop M pub_keys_and_msgs with
    | some decoded => lib_aggregate_verify M decoded sig
    | none => false
  | none => false

/-- The decoding fold inside public-key aggregation: decode every key;
any individual decode failure aborts the aggregation. -/
def pk_decode_all (M : BlstModel) : List (List Nat) → Option (List M.PK)
  | [] => some []
  | pkb :: rest =>
    match M.pkFromBytes pkb with
    | some pk => (pk_decode_all M rest).map fun l => pk :: l
    | none => none

/-- Modelled from the spec: `Bls12381G1PublicKey::aggregate` (the file
`src/bls12381/public_key.rs` is declared in `mod.rs` but absent from the
sources).  Per the spec, aggregation sums the decoded points via
elliptic-curve group addition; any individual key decode failure is a
failure, and aggregating an empty list is a reportable failure (there is
no identity element to return). -/
def pkAggregate (M : BlstModel) (public_keys : List (List Nat)) : Option (List Nat) :=
  match public_keys with
  | [] => none
  | pkb :: rest =>
    match M.pkFromBytes pkb with
    | some pk0 =>
      match pk_decode_all M rest with
      | some pts => some (M.pkToBytes (pts.foldl M.pkAdd pk0))
      | none => none
    | none => none

/-- Embeds `fast_aggregate_verify_bls12381_v1` from
`src/bls12381/signature_validator.rs`: aggregate the public keys; on
success delegate to `verify_bls12381_v1` with the aggregate key, otherwise
return `false`. -/
def fast_aggregate_verify_bls12381_v1 (M : BlstModel) (message : List Nat)
    (public_keys : List (List Nat)) (signature : List Nat) : Bool :=
  match pkAggregate M public_keys with
  | some agg_pk => verify_bls12381_v1 M message agg_pk signature
  | none => false

/-- A concrete instantiation of the library model used to evaluate the
embedded routines on closed inputs: points carry no data, decoding succeeds
exactly on well-lengthed byte strings (48 bytes for public keys, 96 for
signatures), every aggregation step and subgroup check succeeds, and the
final pairing-equality check returns the fixed boolean `fv`.  `fv = false`
realises a scenario the repository's own test-suite exercises: all inputs
decode and validate but the two final pairing results differ (for instance
ten valid (key, message) pairs with the message list reversed, against the
true aggregate signature of the original pairing). -/
def unitModel (fv : Bool) : BlstModel where
  PK := Unit
  Sig := Unit
  pkFromBytes := fun b => if b.length = 48 then some () else none
  sigFromBytes := fun b => if b.length = 96 then some () else none
  pairingAggregateOk := fun _ _ => true
  sigValidate := fun _ => true
  finalVerify := fun _ _ => fv
  coreVerify := fun _ _ _ => true
  pkAdd := fun _ _ => ()
  pkToBytes := fun _ => List.replicate 48 0

theorem cast_eq_some_iff (a v : Nat) : Calc.cast a = some v ↔ a < U32 ∧ v = a := by
  unfold Calc.cast
  split <;> simp_all <;> omega

theorem add_eq_some_iff (a b v : Nat) : Calc.add a b = some v ↔ a + b < U32 ∧ v = a + b := by
  unfold Calc.add
  split <;> simp_all <;> omega

theorem mul_eq_some_iff (a b v : Nat) : Calc.mul a b = some v ↔ a * b < U32 ∧ v = a * b := by
  unfold Calc.mul
  split <;> simp_all <;> omega

theorem sub_eq_some_iff (a b v : Nat) : Calc.sub a b = some v ↔ b ≤ a ∧ v = a - b := by
  unfold Calc.sub
  split <;> simp_all <;> omega

theorem remTermOf_mod_eq_some (n : Nat) :
    Calc.remTermOf (n % 8) = some (remTableVal (n % 8)) := by
  have h : n % 8 < 8 := Nat.mod_lt _ (by norm_num)
  generalize n % 8 = r at h ⊢
  interval_cases r <;> rfl

theorem remTermOf_eq_some_val (r v : Nat) (h : Calc.remTermOf r = some v) :
    v = remTableVal r := by
  simp [remTableVal, h]

theorem loop_sound (sizes : List Nat) :
    ∀ acc v, Calc.aggregate_verify_loop sizes acc = some v →
      v = acc + (sizes.map fun s => 35 * s + 2620296).sum := by
  induction sizes with
  | nil =>
    intro acc v h
    simp [Calc.aggregate_verify_loop] at h
    simp [h]
  | cons s rest ih =>
    intro acc v h
    simp only [Calc.aggregate_verify_loop, Option.bind_eq_some] at h
    obtain ⟨c, hc, m, hm, a1, ha1, a2, ha2, hrec⟩ := h
    rw [cast_eq_some_iff] at hc
    rw [mul_eq_some_iff] at hm
    rw [add_eq_some_iff] at ha1
    rw [add_eq_some_iff] at ha2
    have hv := ih a2 v hrec
    simp only [List.map_cons, List.sum_cons]
    omega

theorem loop_complete (sizes : List Nat) :
    ∀ acc, acc + (sizes.map fun s => 35 * s + 2620296).sum < U32 →
      Calc.aggregate_verify_loop sizes acc
        = some (acc + (sizes.map fun s => 35 * s + 2620296).sum) := by
  induction sizes with
  | nil =>
    intro acc h
    simp [Calc.aggregate_verify_loop]
  | cons s rest ih =>
    intro acc h
    simp only [List.map_cons, List.sum_cons] at h ⊢
    have hs : s ≤ 35 * s := Nat.le_mul_of_pos_left s (by norm_num)
    have hc : Calc.cast s = some s := by
      rw [cast_eq_some_iff]
      omega
    have hm : Calc.mul 35 s = some (35 * s) := by
      rw [mul_eq_some_iff]
      omega
    have ha1 : Calc.add acc (35 * s) = some (acc + 35 * s) := by
      rw [add_eq_some_iff]
      omega
    have ha2 : Calc.add (acc + 35 * s) 2620296 = some (acc + 35 * s + 2620296) := by
      rw [add_eq_some_iff]
      omega
    have hrec := ih (acc + 35 * s + 2620296) (by omega)
    simp only [Calc.aggregate_verify_loop]
    rw [hc, Option.some_bind]
    beta_reduce
    rw [hm, Option.some_bind]
    rw [ha1, Option.some_bind]
    rw [ha2, Option.some_bind]
    rw [hrec]
    simp only [Option.some.injEq]
    omega

theorem no_threaded_sound (sizes : List Nat) (v : Nat)
    (h : Calc.calc_aggregate_verify_instructions_no_threaded sizes = some v) :
    v = aggregateVerifyCostSpec sizes := by
  simp only [Calc.calc_aggregate_verify_instructions_no_threaded,
    Option.bind_eq_some] at h
  obtain ⟨c, hc, mult, hmult, m, hm, c2, hc2, r, hr, c3, hc3, hfin⟩ := h
  have hcv := loop_sound sizes 0 c hc
  rw [cast_eq_some_iff] at hmult
  rw [mul_eq_some_iff] at hm
  rw [add_eq_some_iff] at hc2
  have hrv := remTermOf_eq_some_val _ _ hr
  rw [add_eq_some_iff] at hc3
  rw [add_eq_some_iff] at hfin
  unfold aggregateVerifyCostSpec
  subst hcv hrv
  omega

theorem no_threaded_complete (sizes : List Nat)
    (h : aggregateVerifyCostSpec sizes < U32) :
    Calc.calc_aggregate_verify_instructions_no_threaded sizes
      = some (aggregateVerifyCostSpec sizes) := by
  unfold aggregateVerifyCostSpec at h
  have hloop := loop_complete sizes 0 (by omega)
  have hmult : Calc.cast (sizes.length / 8) = some (sizes.length / 8) := by
    rw [cast_eq_some_iff]
    omega
  have hm : Calc.mul (sizes.length / 8) 16850000
      = some (sizes.length / 8 * 16850000) := by
    rw [mul_eq_some_iff]
    omega
  have hc2 : Calc.add (0 + (sizes.map fun s => 35 * s + 2620296).sum)
      (sizes.length / 8 * 16850000)
      = some ((sizes.map fun s => 35 * s + 2620296).sum
          + sizes.length / 8 * 16850000) := by
    rw [add_eq_some_iff]
    omega
  have hrem := remTermOf_mod_eq_some sizes.length
  have hc3 : Calc.add ((sizes.map fun s => 35 * s + 2620296).sum
        + sizes.length / 8 * 16850000) (remTableVal (sizes.length % 8))
      = some ((sizes.map fun s => 35 * s + 2620296).sum
          + sizes.length / 8 * 16850000 + remTableVal (sizes.length % 8)) := by
    rw [add_eq_some_iff]
    omega
  have hfin : Calc.add ((sizes.map fun s => 35 * s + 2620296).sum
        + sizes.length / 8 * 16850000 + remTableVal (sizes.length % 8))
      (281125 + 583573 + 3027639 + 4280077)
      = some ((sizes.map fun s => 35 * s + 2620296).sum
          + sizes.length / 8 * 16850000 + remTableVal (sizes.length % 8)
          + (281125 + 583573 + 3027639 + 4280077)) := by
    rw [add_eq_some_iff]
    omega
  unfold aggregateVerifyCostSpec
  simp only [Calc.calc_aggregate_verify_instructions_no_threaded]
  rw [hloop, Option.some_bind]
  beta_reduce
  rw [hmult, Option.some_bind]
  rw [hm, Option.some_bind]
  rw [hc2, Option.some_bind]
  rw [hrem, Option.some_bind]
  rw [hc3, Option.some_bind]
  exact hfin

theorem cli_loop_eq (sizes : List Nat) :
    ∀ acc, Cli.aggregate_verify_loop sizes acc = Calc.aggregate_verify_loop sizes acc := by
  induction sizes with
  | nil => intro acc; rfl
  | cons s rest ih =>
    intro acc
    simp only [Cli.aggregate_verify_loop, Calc.aggregate_verify_loop]
    refine Option.bind_congr' rfl fun c _ => ?_
    refine Option.bind_congr' rfl fun m _ => ?_
    refine Option.bind_congr' rfl fun a1 _ => ?_
    refine Option.bind_congr' rfl fun a2 _ => ?_
    exact ih a2

theorem pairing_loop_mem_none (M : BlstModel) (pkb m : List Nat) :
    ∀ pairs, (pkb, m) ∈ pairs → M.pkFromBytes pkb = none →
      pairing_aggregate_loop M pairs = none := by
  intro pairs
  induction pairs with
  | nil => intro hmem; exact absurd hmem (List.not_mem_nil _)
  | cons hd rest ih =>
    intro hmem hnone
    obtain ⟨a, b⟩ := hd
    rcases List.mem_cons.mp hmem with heq | hmem2
    · injection heq with hab hmb
      subst hab
      simp [pairing_aggregate_loop, hnone]
    · cases hpk : M.pkFromBytes a with
      | none => simp [pairing_aggregate_loop, hpk]
      | some pk =>
        cases hok : M.pairingAggregateOk pk b with
        | false => simp [pairing_aggregate_loop, hpk, hok]
        | true => simp [pairing_aggregate_loop, hpk, hok, ih hmem2 hnone]

theorem threaded_loop_mem_none (M : BlstModel) (pkb m : List Nat) :
    ∀ pairs, (pkb, m) ∈ pairs → M.pkFromBytes pkb = none →
      threaded_decode_loop M pairs = none := by
  intro pairs
  induction pairs with
  | nil => intro hmem; exact absurd hmem (List.not_mem_nil _)
  | cons hd rest ih =>
    intro hmem hnone
    obtain ⟨a, b⟩ := hd
    rcases List.mem_cons.mp hmem with heq | hmem2
    · injection heq with hab hmb
      subst hab
      simp [threaded_decode_loop, hnone]
    · cases hpk : M.pkFromBytes a with
      | none => simp [threaded_decode_loop, hpk]
      | some pk => simp [threaded_decode_loop, hpk, ih hmem2 hnone]

theorem pk_decode_all_mem_none (M : BlstModel) (pkb : List Nat) :
    ∀ l, pkb ∈ l → M.pkFromBytes pkb = none → pk_decode_all M l = none := by
  intro l
  induction l with
  | nil => intro hmem; exact absurd hmem (List.not_mem_nil _)
  | cons a rest ih =>
    intro hmem hnone
    rcases List.mem_cons.mp hmem with heq | hmem2
    · subst heq
      simp [pk_decode_all, hnone]
    · cases hpk : M.pkFromBytes a with
      | none => simp [pk_decode_all, hpk]
      | some pk => simp [pk_decode_all, hpk, ih hmem2 hnone]

theorem pkAggregate_mem_none (M : BlstModel) (pkb : List Nat)
    (pks : List (List Nat)) (hmem : pkb ∈ pks) (hnone : M.pkFromBytes pkb = none) :
    pkAggregate M pks = none := by
  cases pks with
  | nil => rfl
  | cons a rest =>
    rcases List.mem_cons.mp hmem with heq | hmem2
    · subst heq
      simp [pkAggregate, hnone]
    · cases hpk : M.pkFromBytes a with
      | none => simp [pkAggregate, hpk]
      | some pk0 =>
        simp [pkAggregate, hpk, pk_decode_all_mem_none M pkb rest hmem2 hnone]

theorem sum_map_set_mono (s s2 : Nat) (hs : s ≤ s2) :
    ∀ (l : List Nat) (i : Nat),
      ((l.set i s).map fun t => 35 * t + 2620296).sum
        ≤ ((l.set i s2).map fun t => 35 * t + 2620296).sum := by
  intro l
  induction l with
  | nil => intro i; simp
  | cons a t ih =>
    intro i
    cases i with
    | zero =>
      simp only [List.set]
      simp only [List.map_cons, List.sum_cons]
      have h35 : 35 * s ≤ 35 * s2 := Nat.mul_le_mul_left 35 hs
      omega
    | succ j =>
      simp only [List.set]
      simp only [List.map_cons, List.sum_cons]
      have := ih j
      omega

/-- C1: code bug.  The claim requires `aggregate_verify_bls12381_v1` to
return `true` only when the final pairing-equality check holds, but the
source discards the boolean result of `pairing.finalverify`
(`let _ = perf!("pairing_verify", pairing.finalverify(Some(&gtsig)));`,
`src/bls12381/signature_validator.rs` lines 93-94) and returns `true`
unconditionally.  Evaluated at a concrete instance of the library model in
which every decode, aggregation step and subgroup check succeeds while the
final pairing-equality check is `false` — precisely the situation the
repository's own `sign_and_verify_aggregated_reverse_order` and
`sign_and_verify_aggregated_missing_message` tests create with real curve
points — the function still returns `true`. -/
theorem C1_finalverify_result_discarded :
    pairing_aggregate_loop (unitModel false)
        [(List.replicate 48 0, [1]), (List.replicate 48 0, [2])]
      = some [((), [1]), ((), [2])]
  ∧ (unitModel false).sigValidate () = true
  ∧ (unitModel false).finalVerify [((), [1]), ((), [2])] () = false
  ∧ aggregate_verify_bls12381_v1 (unitModel false)
        [(List.replicate 48 0, [1]), (List.replicate 48 0, [2])]
        (List.replicate 96 0) = true := by
  refine ⟨rfl, rfl, rfl, rfl⟩

/-- C2: code bug.  The non-threaded and threaded paths must agree on every
input, but at a concrete library-model instance where all inputs decode and
validate while the final pairing-equality check is `false`, the
non-threaded path returns `true` (it discards the `finalverify` result,
see C1) while the threaded path — delegating to the library's
aggregate-verify routine, which honours the equality check — returns
`false`. -/
theorem C2_threaded_nonthreaded_disagree :
    aggregate_verify_bls12381_v1 (unitModel false)
        [(List.replicate 48 0, [1])] (List.replicate 96 0) = true
  ∧ aggregate_verify_bls12381_v1_threaded (unitModel false)
        [(List.replicate 48 0, [1])] (List.replicate 96 0) = false := by
  refine ⟨rfl, rfl⟩

/-- C3: every verification operation (`verify_bls12381_v1`,
`aggregate_verify_bls12381_v1`, `aggregate_verify_bls12381_v1_threaded`)
is a total boolean function: whenever the signature bytes or any
public-key bytes fail to decode, the operation returns `false` — malformed
input is observably identical to an invalid signature. -/
theorem C3_decode_failure_is_false :
    (∀ (M : BlstModel) (msg pkb sigb : List Nat),
      M.sigFromBytes sigb = none → verify_bls12381_v1 M msg pkb sigb = false)
  ∧ (∀ (M : BlstModel) (msg pkb sigb : List Nat),
      M.pkFromBytes pkb = none → verify_bls12381_v1 M msg pkb sigb = false)
  ∧ (∀ (M : BlstModel) (pairs : List (List Nat × List Nat)) (sigb : List Nat),
      M.sigFromBytes sigb = none →
        aggregate_verify_bls12381_v1 M pairs sigb = false
        ∧ aggregate_verify_bls12381_v1_threaded M pairs sigb = false)
  ∧ (∀ (M : BlstModel) (pairs : List (List Nat × List Nat)) (sigb pkb m : List Nat),
      (pkb, m) ∈ pairs → M.pkFromBytes pkb = none →
        aggregate_verify_bls12381_v1 M pairs sigb = false
        ∧ aggregate_verify_bls12381_v1_threaded M pairs sigb = false) := by
  refine ⟨?_, ?_, ?_, ?_⟩
  · intro M msg pkb sigb h
    simp [verify_bls12381_v1, h]
  · intro M msg pkb sigb h
    cases hs : M.sigFromBytes sigb with
    | none => simp [verify_bls12381_v1, hs]
    | some sig => simp [verify_bls12381_v1, hs, h]
  · intro M pairs sigb h
    exact ⟨by simp [aggregate_verify_bls12381_v1, h],
      by simp [aggregate_verify_bls12381_v1_threaded, h]⟩
  · intro M pairs sigb pkb m hmem h
    constructor
    · cases hs : M.sigFromBytes sigb with
      | none => simp [aggregate_verify_bls12381_v1, hs]
      | some sig =>
        simp [aggregate_verify_bls12381_v1, hs,
          aggregate_verify_bls12381_v1_no_threads,
          pairing_loop_mem_none M pkb m pairs hmem h]
    · cases hs : M.sigFromBytes sigb with
      | none => simp [aggregate_verify_bls12381_v1_threaded, hs]
      | some sig =>
        simp [aggregate_verify_bls12381_v1_threaded, hs,
          threaded_loop_mem_none M pkb m pairs hmem h]

/-- Witness for C3 at concrete inputs: empty byte strings fail to decode
(wrong length) and each verification operation returns `false` on them. -/
theorem C3_witness :
    (unitModel true).sigFromBytes [] = none
  ∧ verify_bls12381_v1 (unitModel true) [1] (List.replicate 48 0) [] = false
  ∧ (unitModel true).pkFromBytes [] = none
  ∧ verify_bls12381_v1 (unitModel true) [1] [] (List.replicate 96 0) = false
  ∧ aggregate_verify_bls12381_v1 (unitModel true) [([], [1])]
      (List.replicate 96 0) = false
  ∧ aggregate_verify_bls12381_v1_threaded (unitModel true) [([], [1])]
      (List.replicate 96 0) = false :=
  ⟨rfl,
   C3_decode_failure_is_false.1 (unitModel true) [1] (List.replicate 48 0) []
     rfl,
   rfl,
   C3_decode_failure_is_false.2.1 (unitModel true) [1] [] (List.replicate 96 0)
     rfl,
   (C3_decode_failure_is_false.2.2.2 (unitModel true) [([], [1])]
     (List.replicate 96 0) [] [1] (by simp) rfl).1,
   (C3_decode_failure_is_false.2.2.2 (unitModel true) [([], [1])]
     (List.replicate 96 0) [] [1] (by simp) rfl).2⟩

/-- C4: for every list of message sizes such that the modelled total (and
with it every size and intermediate sum) fits in `u32`,
`calc_aggregate_verify_instructions_no_threaded` returns, per message, 35
instructions per byte plus the fixed per-pair cost 2620296; plus the batch
bonus 16850000 for every complete group of 8 pairs; plus the
remainder-table value at `count mod 8` (zero at remainder 0); plus the
size-independent constant. -/
theorem C4_no_threaded_closed_form (sizes : List Nat)
    (h : aggregateVerifyCostSpec sizes < U32) :
    Calc.calc_aggregate_verify_instructions_no_threaded sizes
      = some (aggregateVerifyCostSpec sizes) :=
  no_threaded_complete sizes h

/-- Witness for C4 at the concrete size list `[10, 10]`. -/
theorem C4_witness :
    aggregateVerifyCostSpec [10, 10] < U32
  ∧ Calc.calc_aggregate_verify_instructions_no_threaded [10, 10]
      = some (aggregateVerifyCostSpec [10, 10]) :=
  ⟨by decide, C4_no_threaded_closed_form [10, 10] (by decide)⟩

/-- C5: for every `u32` input whose scaled product fits in `u32`,
`calc_aggregate_verify_instructions_threaded` returns a count within
rounding tolerance of 1.21 times the input: scaling by 100, the returned
count `r` satisfies `100 * r ≤ 121 * x < 100 * r + 12100`, i.e. the
absolute difference between `r` and the exact rational `121 * x / 100` is
less than 121. -/
theorem C5_threaded_ratio (x : Nat) (hx : x < U32)
    (hmul : x / 100 * 121 < U32) :
    ∃ r, Calc.calc_aggregate_verify_instructions_threaded x = some r
      ∧ 100 * r ≤ 121 * x ∧ 121 * x < 100 * r + 12100 := by
  refine ⟨x / 100 * 121, ?_, by omega, by omega⟩
  unfold Calc.calc_aggregate_verify_instructions_threaded
  rw [mul_eq_some_iff]
  exact ⟨hmul, rfl⟩

/-- Witness for C5 at the concrete input 250 (result 242, and
121 times 250 equals 30250, within 12100 of 100 times 242). -/
theorem C5_witness :
    (250 : Nat) < U32 ∧ 250 / 100 * 121 < U32
  ∧ ∃ r, Calc.calc_aggregate_verify_instructions_threaded 250 = some r
      ∧ 100 * r ≤ 121 * 250 ∧ 121 * 250 < 100 * r + 12100 :=
  ⟨by decide, by decide, C5_threaded_ratio 250 (by decide) (by decide)⟩

/-- C6: for a fixed pair count, the non-threaded aggregate-verify cost is
non-decreasing in each message size (increasing any one entry of the size
list never decreases a returned result), and the remainder-dependent term
is periodic with period 8 in the pair count. -/
theorem C6_monotone_and_periodic :
    (∀ (sizes : List Nat) (i s s2 v v2 : Nat), s ≤ s2 →
      Calc.calc_aggregate_verify_instructions_no_threaded (sizes.set i s)
        = some v →
      Calc.calc_aggregate_verify_instructions_no_threaded (sizes.set i s2)
        = some v2 →
      v ≤ v2)
  ∧ ∀ n, Calc.remTermOf ((n + 8) % 8) = Calc.remTermOf (n % 8) := by
  constructor
  · intro sizes i s s2 v v2 hs hv hv2
    have e1 := no_threaded_sound _ _ hv
    have e2 := no_threaded_sound _ _ hv2
    subst e1
    subst e2
    unfold aggregateVerifyCostSpec
    simp only [List.length_set]
    have hm := sum_map_set_mono s s2 hs sizes i
    omega
  · intro n
    rw [Nat.add_mod_right]

/-- Witness for C6 at the concrete list `[1, 2]`, raising the first size
from 1 to 5: the cost rises from 18433879 to 18434019. -/
theorem C6_witness :
    (1 : Nat) ≤ 5
  ∧ Calc.calc_aggregate_verify_instructions_no_threaded ([1, 2].set 0 1)
      = some 18433879
  ∧ Calc.calc_aggregate_verify_instructions_no_threaded ([1, 2].set 0 5)
      = some 18434019
  ∧ (18433879 : Nat) ≤ 18434019 :=
  ⟨by decide, by decide, by decide,
   C6_monotone_and_periodic.1 [1, 2] 0 1 5 18433879 18434019 (by decide)
     (by decide) (by decide)⟩

/-- C7: every cost-model function computes with overflow-checked
arithmetic: whenever it returns a value, that value is the exact
mathematical value of its formula over unbounded naturals — never a value
silently wrapped modulo `2^32`. -/
theorem C7_checked_arithmetic_exact :
    (∀ size v, Calc.calc_verify_instructions size = some v →
      v = size * 36 + 15650000)
  ∧ (∀ sizes v, Calc.calc_aggregate_verify_instructions_no_threaded sizes
        = some v → v = aggregateVerifyCostSpec sizes)
  ∧ (∀ x v, Calc.calc_aggregate_verify_instructions_threaded x = some v →
      v = x / 100 * 121)
  ∧ (∀ cnt size v, Calc.calc_fast_aggregate_verify_instructions cnt size
        = some v → v = size * 36 + cnt * 626056 + 15200000)
  ∧ (∀ cnt v, Calc.calc_signature_aggregate_instructions cnt = some v →
      500000 ≤ cnt * 879554 ∧ v = cnt * 879554 - 500000) := by
  refine ⟨?_, fun sizes v h => no_threaded_sound sizes v h, ?_, ?_, ?_⟩
  · intro size v h
    simp only [Calc.calc_verify_instructions, Option.bind_eq_some] at h
    obtain ⟨c, hc, m, hm, hadd⟩ := h
    rw [cast_eq_some_iff] at hc
    rw [mul_eq_some_iff] at hm
    rw [add_eq_some_iff] at hadd
    omega
  · intro x v h
    simp only [Calc.calc_aggregate_verify_instructions_threaded] at h
    rw [mul_eq_some_iff] at h
    omega
  · intro cnt size v h
    simp only [Calc.calc_fast_aggregate_verify_instructions,
      Option.bind_eq_some] at h
    obtain ⟨c, hc, m1, hm1, m2, hm2, a, ha, hadd⟩ := h
    rw [cast_eq_some_iff] at hc
    rw [mul_eq_some_iff] at hm1
    rw [mul_eq_some_iff] at hm2
    rw [add_eq_some_iff] at ha
    rw [add_eq_some_iff] at hadd
    omega
  · intro cnt v h
    simp only [Calc.calc_signature_aggregate_instructions,
      Option.bind_eq_some] at h
    obtain ⟨m, hm, hsub⟩ := h
    rw [mul_eq_some_iff] at hm
    rw [sub_eq_some_iff] at hsub
    omega

/-- Witness for C7: each cost function evaluated at a concrete input
yields exactly its unbounded formula value. -/
theorem C7_witness :
    ((15653600 : Nat) = 100 * 36 + 15650000)
  ∧ ((13847766 : Nat) = aggregateVerifyCostSpec [100])
  ∧ ((1210 : Nat) = 1000 / 100 * 121)
  ∧ ((16455712 : Nat) = 100 * 36 + 2 * 626056 + 15200000)
  ∧ (500000 ≤ 3 * 879554 ∧ (2138662 : Nat) = 3 * 879554 - 500000) :=
  ⟨C7_checked_arithmetic_exact.1 100 15653600 (by decide),
   C7_checked_arithmetic_exact.2.1 [100] 13847766 (by decide),
   C7_checked_arithmetic_exact.2.2.1 1000 1210 (by decide),
   C7_checked_arithmetic_exact.2.2.2.1 2 100 16455712 (by decide),
   C7_checked_arithmetic_exact.2.2.2.2 3 2138662 (by decide)⟩

/-- C8: for every signature count at least 1 whose product fits in `u32`,
`calc_signature_aggregate_instructions` returns `879554 * cnt - 500000`,
and at count 0 — where the value would be negative — it fails fast
(`checked_sub` panic) rather than clamping to zero. -/
theorem C8_signature_aggregate_formula :
    (∀ cnt, 1 ≤ cnt → 879554 * cnt < U32 →
      Calc.calc_signature_aggregate_instructions cnt
        = some (879554 * cnt - 500000))
  ∧ Calc.calc_signature_aggregate_instructions 0 = none := by
  constructor
  · intro cnt h1 hmulbound
    have hmul : Calc.mul cnt 879554 = some (cnt * 879554) := by
      rw [mul_eq_some_iff]
      omega
    have hsub : Calc.sub (cnt * 879554) 500000
        = some (cnt * 879554 - 500000) := by
      rw [sub_eq_some_iff]
      omega
    simp only [Calc.calc_signature_aggregate_instructions]
    rw [hmul, Option.some_bind, hsub]
    simp only [Option.some.injEq]
    omega
  · decide

/-- Witness for C8 at count 1: the result is `879554 - 500000 = 379554`. -/
theorem C8_witness :
    (1 : Nat) ≤ 1 ∧ 879554 * 1 < U32
  ∧ Calc.calc_signature_aggregate_instructions 1
      = some (879554 * 1 - 500000) :=
  ⟨by decide, by decide,
   C8_signature_aggregate_formula.1 1 (by decide) (by decide)⟩

/-- C9: `fast_aggregate_verify_bls12381_v1` is exactly the composition of
public-key aggregation with single verification: on successful aggregation
it returns `verify_bls12381_v1` of the message, aggregate key and
signature; on aggregation failure — including any individual key decode
failure — it returns `false`. -/
theorem C9_fast_aggregate_composition (M : BlstModel) (message : List Nat)
    (public_keys : List (List Nat)) (signature : List Nat) :
    (∀ apk, pkAggregate M public_keys = some apk →
      fast_aggregate_verify_bls12381_v1 M message public_keys signature
        = verify_bls12381_v1 M message apk signature)
  ∧ (pkAggregate M public_keys = none →
      fast_aggregate_verify_bls12381_v1 M message public_keys signature
        = false)
  ∧ (∀ pkb, pkb ∈ public_keys → M.pkFromBytes pkb = none →
      fast_aggregate_verify_bls12381_v1 M message public_keys signature
        = false) := by
  refine ⟨?_, ?_, ?_⟩
  · intro apk h
    simp [fast_aggregate_verify_bls12381_v1, h]
  · intro h
    simp [fast_aggregate_verify_bls12381_v1, h]
  · intro pkb hmem h
    simp [fast_aggregate_verify_bls12381_v1,
      pkAggregate_mem_none M pkb public_keys hmem h]

/-- Witness for C9: with one well-lengthed key the aggregation succeeds and
the call delegates to `verify_bls12381_v1`; with one undecodable key the
aggregation fails and the call returns `false`. -/
theorem C9_witness :
    pkAggregate (unitModel true) [List.replicate 48 0]
      = some (List.replicate 48 0)
  ∧ fast_aggregate_verify_bls12381_v1 (unitModel true) [1]
        [List.replicate 48 0] (List.replicate 96 0)
      = verify_bls12381_v1 (unitModel true) [1] (List.replicate 48 0)
          (List.replicate 96 0)
  ∧ pkAggregate (unitModel true) [[]] = none
  ∧ fast_aggregate_verify_bls12381_v1 (unitModel true) [1] [[]]
      (List.replicate 96 0) = false :=
  ⟨rfl,
   (C9_fast_aggregate_composition (unitModel true) [1] [List.replicate 48 0]
     (List.replicate 96 0)).1 (List.replicate 48 0) rfl,
   rfl,
   (C9_fast_aggregate_composition (unitModel true) [1] [[]]
     (List.replicate 96 0)).2.1 rfl⟩

/-- C10: the public cost-model functions in `calc.rs` and their private
duplicates in `cli.rs` are extensionally equal: on every input each pair
returns the same value and fails in the same way. -/
theorem C10_cli_calc_agree :
    (∀ sizes, Cli.aggregate_verify_instructions_no_threaded sizes
        = Calc.calc_aggregate_verify_instructions_no_threaded sizes)
  ∧ (∀ x, Cli.aggregate_verify_instructions_threaded x
        = Calc.calc_aggregate_verify_instructions_threaded x)
  ∧ (∀ size, Cli.verify_instructions size = Calc.calc_verify_instructions size)
  ∧ (∀ cnt size, Cli.fast_aggregate_verify_instructions cnt size
        = Calc.calc_fast_aggregate_verify_instructions cnt size)
  ∧ (∀ cnt, Cli.signature_aggregate_instructions cnt
        = Calc.calc_signature_aggregate_instructions cnt) := by
  refine ⟨?_, fun x => rfl, fun size => rfl, fun cnt size => rfl,
    fun cnt => rfl⟩
  intro sizes
  simp only [Cli.aggregate_verify_instructions_no_threaded,
    Calc.calc_aggregate_verify_instructions_no_threaded]
  exact Option.bind_congr' (cli_loop_eq sizes 0) fun c _ => rfl

end BlsPerf
